/-
Verification of the jqMVC DbQuery filter-to-SQL compiler
(src/class.db_query.js) against its natural-language specification.

JavaScript values that can flow through the compiler are modeled as the
tagged union `JsVal`; JS machine behaviour that the source relies on
(truthiness, string coercion for `+` and `Array.prototype.join`,
property-key coercion for `hasOwnProperty`) is modeled explicitly.
`$.SqlClause` objects are the `sqlClause` variant: the constructor stores
the clause text and its bound values (src/class.db_query.js lines 24-99).
-/
import Mathlib

set_option maxHeartbeats 1000000

namespace JqMvc

/-- A JavaScript value as used by the DbQuery filter compiler.  `num` models
finite numbers as integers (all numbers appearing on compiler paths are
integral); `date` carries the ISO-8601 string that `toISOString` returns;
`sqlClause` is an `af.SqlClause` object (text, bound values); `objOther` is
any other object (e.g. a plain object literal), which the compiler treats as
an unsupported value kind. -/
inductive JsVal where
  | str : String → JsVal
  | num : Int → JsVal
  | boolean : Bool → JsVal
  | null : JsVal
  | undef : JsVal
  | date : String → JsVal
  | arr : List JsVal → JsVal
  | sqlClause : String → List JsVal → JsVal
  | objOther : JsVal
deriving Repr

/-- Class tag in the form the source compares `$.typeOf` results
("Array", "String", "Boolean", "null", "Date"; see lines 584, 859, 911-918). -/
def typeOf : JsVal → String
  | .str _ => "String"
  | .num _ => "Number"
  | .boolean _ => "Boolean"
  | .null => "null"
  | .undef => "undefined"
  | .date _ => "Date"
  | .arr _ => "Array"
  | .sqlClause _ _ => "Object"
  | .objOther => "Object"

/-- JS truthiness of a value. -/
def truthy : JsVal → Bool
  | .str s => decide (s ≠ "")
  | .num n => decide (n ≠ 0)
  | .boolean b => b
  | .null => false
  | .undef => false
  | .date _ => true
  | .arr _ => true
  | .sqlClause _ _ => true
  | .objOther => true

/-- `isString` from the source (line 966): `typeof test === "string"`. -/
def isString : JsVal → Bool
  | .str _ => true
  | _ => false

/-- Characters treated as whitespace by `trim` and the value-split regex. -/
def wsChar (c : Char) : Bool := c.isWhitespace

/-- JS `String.prototype.trim`. -/
def trimJs (s : String) : String :=
  String.mk (((s.data.dropWhile wsChar).reverse.dropWhile wsChar).reverse)

/-- JS `String.prototype.toUpperCase` (ASCII range). -/
def toUpperJS (s : String) : String := String.mk (s.data.map Char.toUpper)

/-- JS `String.prototype.toLowerCase` (ASCII range). -/
def toLowerJS (s : String) : String := String.mk (s.data.map Char.toLower)

/-- Number of `?` placeholder tokens in a piece of SQL text. -/
def countQ (s : String) : Nat := s.data.count '?'

/-- Is `pat` a contiguous substring of `s` (JS `indexOf(pat) > -1`). -/
def hasSubstr (pat s : String) : Bool := go pat.data s.data
where go (p : List Char) : List Char → Bool
  | [] => p.isEmpty
  | c :: rest => List.isPrefixOf p (c :: rest) || go p rest

/-- Worker for JS `String(v)` coercion.  `Array.prototype.toString` joins the
elements with commas, rendering `null`/`undefined` elements as empty strings;
`SqlClause.toString` returns the clause text (source line 53).  The `Nat`
argument is structural-recursion fuel: every recursive call decreases it, and
the top-level wrapper supplies enough fuel for any value whose array nesting
depth plus length stays below it (no compiler path stringifies deeper data). -/
def jsStrF : Nat → JsVal ⊕ List JsVal → String
  | 0, _ => ""
  | _ + 1, .inl (.str s) => s
  | _ + 1, .inl (.num n) => toString n
  | _ + 1, .inl (.boolean b) => cond b "true" "false"
  | _ + 1, .inl .null => "null"
  | _ + 1, .inl .undef => "undefined"
  | _ + 1, .inl (.date iso) => iso
  | _ + 1, .inl (.sqlClause t _) => t
  | _ + 1, .inl .objOther => "[object Object]"
  | n + 1, .inl (.arr xs) => jsStrF n (.inr xs)
  | _ + 1, .inr [] => ""
  | n + 1, .inr (x :: xs) =>
    (match x with
     | .null => ""
     | .undef => ""
     | v => jsStrF n (.inl v)) ++
    (match xs with
     | [] => ""
     | _ :: _ => "," ++ jsStrF n (.inr xs))

/-- JS `String(v)` coercion. -/
def jsToString (v : JsVal) : String := jsStrF 1000 (.inl v)

/-- How `Array.prototype.join` renders one element: `null` and `undefined`
become empty strings, everything else is `String(v)`. -/
def jsElemToString (v : JsVal) : String :=
  match v with
  | .null => ""
  | .undef => ""
  | v => jsToString v

/-- JS `Array.prototype.join(sep)` over modeled values. -/
def joinJs (sep : String) : List JsVal → String
  | [] => ""
  | [x] => jsElemToString x
  | x :: y :: xs => jsElemToString x ++ sep ++ joinJs sep (y :: xs)

/-- Splits a character list at every `.` (helper for numeral recognition). -/
def splitDot : List Char → List (List Char)
  | [] => [[]]
  | c :: rest =>
    if c = '.' then [] :: splitDot rest
    else
      match splitDot rest with
      | h :: tl => (c :: h) :: tl
      | [] => [[c]]

/-- Is a trimmed string a plain decimal numeral?  Used by `isNumeric`
(source line 954: `!isNaN(parseFloat(test)) && isFinite(test)`); exponent
forms are not needed on any compiler path. -/
def strIsNumericLit (s : String) : Bool :=
  let t := (s.data.dropWhile wsChar).reverse.dropWhile wsChar |>.reverse
  let t :=
    match t with
    | c :: rest => if c = '-' ∨ c = '+' then rest else c :: rest
    | [] => []
  match splitDot t with
  | [a] => !a.isEmpty && a.all Char.isDigit
  | [a, b] => (!a.isEmpty || !b.isEmpty) && a.all Char.isDigit && b.all Char.isDigit
  | _ => false

/-- `isNumeric` from the source (line 954).  Numbers are numeric; strings and
arrays are numeric when their string coercion is a numeral (JS coerces the
array through `String(...)` before `parseFloat`); everything else fails the
`parseFloat` test. -/
def isNumeric : JsVal → Bool
  | .num _ => true
  | .str s => strIsNumericLit s
  | .arr xs => strIsNumericLit (jsToString (.arr xs))
  | _ => false

/-- Element of `l` at index `i`, `undefined` when absent (JS indexing). -/
def getIdx : List JsVal → Nat → JsVal
  | [], _ => .undef
  | x :: _, 0 => x
  | _ :: xs, i + 1 => getIdx xs i

/-- JS assignment `l[i] = v`: pads with `undefined` up to index `i`. -/
def setIdx : List JsVal → Nat → JsVal → List JsVal
  | l, 0, v => v :: l.tail
  | [], i + 1, v => .undef :: setIdx [] i v
  | x :: xs, i + 1, v => x :: setIdx xs i v

/-- JS `entry.length = 3` (source line 655): truncate, or pad with holes. -/
def jsSetLength3 (l : List JsVal) : List JsVal :=
  if l.length ≤ 3 then l ++ List.replicate (3 - l.length) .undef else l.take 3

/-- `SQL_OPERATORS` (source lines 194-200).  The source stores the tokens as
keys of an object (`flipToObject`); membership tests are `hasOwnProperty` or
truthy lookups, both of which reduce to list membership here (the stored
values are the non-empty strings "0", "1", ..., hence always truthy). -/
def SQL_OPERATORS : List String :=
  ["<", ">", "=", ">=", "<=", "<>", "!=",
   "BETWEEN", "IN", "NOT IN", "LIKE", "NOT LIKE",
   "REGEXP", "RLIKE", "NOT REGEXP",
   "ISNULL", "NOT ISNULL",
   "EXISTS", "NOT EXISTS", "ALL", "ANY"]

/-- `SQL_OPERATORS_ARRAY` (source line 206). -/
def SQL_OPERATORS_ARRAY : List String := ["BETWEEN", "NOT BETWEEN", "IN", "NOT IN"]

/-- `SQL_OPERATORS_LOGIC` (source line 212). -/
def SQL_OPERATORS_LOGIC : List String := ["AND", "OR", "XOR", "NOT"]

/-- Membership in the connective set. -/
def logicMem (s : String) : Bool := SQL_OPERATORS_LOGIC.contains s

/-- Membership in the scalar-or-array operator catalog
(the check on source lines 814-816). -/
def opCatalogMem (s : String) : Bool :=
  SQL_OPERATORS.contains s || SQL_OPERATORS_ARRAY.contains s

/-- The storage collaborator consumed by the compiler (spec section 6):
`columnExists`/`getColumnPlaceholder` allow a non-`?` placeholder token per
table/column.  The column argument is passed through as the raw JS value,
as in the source (line 850 passes `entry[0]`). -/
structure DbAdapter where
  columnExists : String → JsVal → Bool
  placeholderFor : String → JsVal → String

/-- The default collaborator: no registered columns, so every placeholder is
`?` (spec section 6: "defaults to `?` when absent"). -/
def defaultDb : DbAdapter := ⟨fun _ _ => false, fun _ _ => "?"⟩

/-- The mutable state of a `$.DbQuery` instance that the compiler touches:
`_table`, `_sql`, `_sqlValues` plus the storage collaborator `_$db`
(source lines 144-181). -/
structure DbQuery where
  table : String
  sql : String
  sqlValues : List JsVal
  db : DbAdapter

/-- `_getColumnPlaceholder` (source lines 937-940). -/
def getColumnPlaceholder (db : DbAdapter) (table : String) (column : JsVal) : String :=
  if db.columnExists table column then db.placeholderFor table column else "?"

/-- `_getLogicOperator` (source lines 739-742): a valid connective is
upper-cased and kept, anything else falls back to the default; a truthy
non-string raises a `TypeError` from `.toUpperCase()`. -/
def getLogicOperator (op1 : JsVal) (defaultOp : String) : Except String String :=
  let d := if defaultOp = "" then "AND" else defaultOp
  if truthy op1 then
    match op1 with
    | .str s => .ok (if logicMem (toUpperJS s) then toUpperJS s else toUpperJS d)
    | _ => .error "TypeError: op1.toUpperCase is not a function"
  else .ok (toUpperJS d)

/-- `_prepareColumnName` (source lines 751-757).  (Its only call site,
line 619, is unreachable: the guard there tests the type of the whole entry
rather than of `entry[0]`; see the C5 theorems below.) -/
def prepareColumnName (column : JsVal) : Except String String :=
  match column with
  | .str s =>
    if s = "" then .error "Error: invalid or empty column name"
    else .ok (toLowerJS (trimJs s))
  | _ => .error "Error: invalid or empty column name"

/-- `_pushValue` (source lines 906-928): converts and appends one value to
`_sqlValues`; returns `none` (JS `false`) for unsupported kinds.  Note that
`null` is pushed as the string "NULL" and arrays as a single quoted joined
string. -/
def pushValue (vals : List JsVal) (value : JsVal) : Option (List JsVal) :=
  if isString value || isNumeric value then some (vals ++ [value])
  else
    match value with
    | .boolean b => some (vals ++ [.num (cond b 1 0)])
    | .null => some (vals ++ [.str "NULL"])
    | .date iso => some (vals ++ [.str iso])
    | .arr xs =>
      some (vals ++ [.str (String.singleton (Char.ofNat 39) ++
        joinJs (String.singleton (Char.ofNat 39) ++ ", " ++ String.singleton (Char.ofNat 39)) xs ++
        String.singleton (Char.ofNat 39))])
    | _ => none

/-- The split of a string value on `/\s*,\s*/` (source line 856): split at
every comma, shedding the whitespace adjacent to each comma (but not at the
ends of the whole string).  `splitCommaRaw` is the raw comma split. -/
def splitCommaRaw : List Char → List String
  | [] => [""]
  | c :: rest =>
    if c = ',' then "" :: splitCommaRaw rest
    else
      match splitCommaRaw rest with
      | h :: tl => (String.singleton c ++ h) :: tl
      | [] => [String.singleton c]

/-- Trim the comma-adjacent whitespace of the raw split pieces: every piece
but the first loses leading whitespace, every piece but the last loses
trailing whitespace. -/
def splitCommaAdjust : Bool → List String → List String
  | _, [] => []
  | first, [p] => [if first then p else String.mk (p.data.dropWhile wsChar)]
  | first, p :: q :: rest =>
    let p1 := if first then p else String.mk (p.data.dropWhile wsChar)
    String.mk (p1.data.reverse.dropWhile wsChar |>.reverse) :: splitCommaAdjust false (q :: rest)

/-- JS `value.split(/\s*,\s*/)`. -/
def splitCommaWs (s : String) : List String := splitCommaAdjust true (splitCommaRaw s.data)

/-- `_prepareSearchOperator` (source lines 803-830), called with
`opIndex = 1`, `valueIndex = 2`.  Returns the (possibly rewritten) entry and
the operator string that the caller assigns to `entry[1]`.  For `ISNULL` /
`NOT ISNULL` the entry is rewritten: `entry[0]` becomes a bare
`SqlClause("OPERATOR(column)")`, `entry[2]` is cleared, and `entry[3]` is set
from `_getLogicOperator(entry[2], '')` - which always yields "AND" because
`entry[2]` was cleared on the line before (source lines 823-824). -/
def prepareSearchOperator (entry : List JsVal) (t : Nat) : Except String (List JsVal × String) :=
  if ¬ truthy (getIdx entry 1) then
    .error ("Error: missing or empty operator in search[" ++ toString t ++ "][1]")
  else
    match getIdx entry 1 with
    | .str s =>
      let operator := toUpperJS (trimJs s)
      if ¬ opCatalogMem operator then
        .error ("Error: unknown operator " ++ operator ++ " in search[" ++ toString t ++ "][1]")
      else if hasSubstr "ISNULL" operator then
        let e1 := setIdx entry 0 (.sqlClause (operator ++ "(" ++ jsToString (getIdx entry 0) ++ ")") [])
        let e2 := setIdx e1 2 .undef
        match getLogicOperator (getIdx e2 2) "" with
        | .error e => .error e
        | .ok lop => .ok (setIdx e2 3 (.str lop), "")
      else .ok (entry, operator)
    | _ =>
      .error ("Error: wrong operator type in search[" ++ toString t ++ "][1]")

/-- The `for (var tt in value)` loop of `_prepareSearchValue` for IN-style
operators (source lines 875-881): one placeholder per element, the comma
separator suppressed for the first index; `_pushValue`'s return value is
ignored, so an unsupported element still gets a placeholder. -/
def inPlaceholders (ph : String) (vals : List JsVal) : List JsVal → String → Bool → String × List JsVal
  | [], tmp, _ => (tmp, vals)
  | v :: rest, tmp, first =>
    inPlaceholders ph ((pushValue vals v).getD vals) rest
      (tmp ++ (if first then "" else ", ") ++ ph) false

/-- `_prepareSearchValue` (source lines 841-898), called with `opIndex = 1`,
`valueIndex = 2`.  Returns the value expression the caller assigns to
`entry[2]` together with the updated `_sqlValues`.  All of its throws happen
before any value is pushed.  `valueType` is captured on line 849 BEFORE the
comma-split of line 856, and line 859 dispatches on that pre-split type: a
string value under an array operator is split into an array but still takes
the scalar path at line 889, where `_pushValue` pushes the whole split array
as one quoted joined string and a single placeholder is emitted; the
BETWEEN/IN expansion (and the BETWEEN arity check) only runs for values that
were arrays to begin with, for which the split never applies.  The
`hasOwnProperty` membership tests coerce the operator to a property key via
`String(...)`. -/
def prepareSearchValue (db : DbAdapter) (table : String) (vals : List JsVal)
    (entry : List JsVal) (t : Nat) : Except String (String × List JsVal) :=
  match getIdx entry 2 with
  | .undef => .error ("Error: missing or empty value in search[" ++ toString t ++ "][2]")
  | value₀ =>
    let operator := getIdx entry 1
    let placeholder := getColumnPlaceholder db table (getIdx entry 0)
    let opKey := jsToString operator
    let value : JsVal :=
      match value₀ with
      | .str s =>
        if SQL_OPERATORS_ARRAY.contains opKey then JsVal.arr ((splitCommaWs s).map JsVal.str)
        else JsVal.str s
      | v => v
    match value₀ with
    | .arr xs =>
      -- line 859: `"Array" === valueType`; here `value = value₀`, because the
      -- split of lines 855-857 only applies to string values
      if ¬ SQL_OPERATORS_ARRAY.contains opKey then
        .error ("Error: unsupported array for skalar sql operator in search[" ++ toString t ++ "][2]")
      else
        match operator with
        | .str "BETWEEN" =>
          if xs.length ≠ 2 then
            .error ("Error: unsupported array length for BETWEEN operator in search[" ++ toString t ++ "][2]")
          else
            let vals1 := (pushValue vals (getIdx xs 0)).getD vals
            let vals2 := (pushValue vals1 (getIdx xs 1)).getD vals1
            .ok (placeholder ++ " AND " ++ placeholder, vals2)
        | _ =>
          let r := inPlaceholders placeholder vals xs "(" true
          .ok (r.1 ++ ")", r.2)
    | _ =>
      match value with
      | .sqlClause text cvals =>
        .ok (text, if 0 < cvals.length then vals ++ cvals else vals)
      | v =>
        match pushValue vals v with
        | some vals1 => .ok (placeholder, vals1)
        | none => .error ("Error: unsupported value in search[" ++ toString t ++ "][2]")

/-- Outcome of processing one filter entry in the `_buildSqlFromFilterArray`
loop: the updated local `sql`, the updated `_sqlValues`, the updated
`openBracket` flag and the value the loop stored back into `filter[t]`
(line 583 writes the sliced copy back, so later mutations of the entry are
visible to the caller); or the thrown error together with the `_sqlValues`
and `filter[t]` state at the throw. -/
inductive StepRes where
  | ok : String → List JsVal → Bool → JsVal → StepRes
  | err : String → List JsVal → JsVal → StepRes
deriving Repr

/-- The constant `TypeError` raised whenever the source evaluates
`this.SQL_OPERATORS_LOGIC.join(...)` while building an error message
(lines 565, 644): `SQL_OPERATORS_LOGIC` is a plain object and has no
`join` method, so the `TypeError` pre-empts the intended `Error`. -/
def msgJoinTypeErr : String := "TypeError: this.SQL_OPERATORS_LOGIC.join is not a function"

/-- Bracket handling of the loop (source lines 606-616). `ovr` is
`entry[1]`, the optional connective override of the bracket entry. -/
def bracketStep (operator : String) (sql : String) (vals : List JsVal) (ob : Bool)
    (tok : String) (ovr : JsVal) (entryAfter : JsVal) : StepRes :=
  if tok = "(" then
    if ob then .ok (sql ++ "(") vals ob entryAfter
    else
      match getLogicOperator ovr operator with
      | .error e => .err e vals entryAfter
      | .ok lop => .ok (sql ++ " " ++ lop ++ "(") vals true entryAfter
  else .ok (sql ++ ")") vals false entryAfter

/-- Common tail of the loop body (source lines 648-664): emit the connective
when not right after an opening bracket, then dispatch on `entry[0]` - a
string head is joined as `(column operator valueExpr)` after `entry.length=3`,
a `SqlClause` head is inlined with its values appended, anything else throws. -/
def emitClause (t : Nat) (sql : String) (vals : List JsVal) (ob : Bool)
    (ws : List JsVal) : StepRes :=
  let pre := if ob then "" else " " ++ jsToString (getIdx ws 3) ++ " "
  match getIdx ws 0 with
  | .str _ =>
    let e3 := jsSetLength3 ws
    .ok (sql ++ pre ++ "(" ++ joinJs " " e3 ++ ")") vals false (.arr e3)
  | .sqlClause text cvals =>
    .ok (sql ++ pre ++ "(" ++ text ++ ")")
      (if 0 < cvals.length then vals ++ cvals else vals) false (.arr ws)
  | _ =>
    .err ("Error: unsupported field type in search.filter[" ++ toString t ++ "][0]") vals (.arr ws)

/-- The string-clause preparation steps of the loop body
(source lines 632-645), entered only when `entry[0]` is a string:
normalize the operator when `entry[1]` is truthy (line 634), encode the
value when `entry[2]` is not `undefined` (lines 638-640), then resolve
`entry[3]` through `_getLogicOperator` (line 642); the final
`hasOwnProperty` re-check (line 643) can only throw the `.join` TypeError
and is unreachable because `_getLogicOperator` always returns a member. -/
def prepareStringClause (db : DbAdapter) (table : String) (operator : String) (t : Nat)
    (vals : List JsVal) (entry : List JsVal) : Except (String × List JsVal × List JsVal) (List JsVal × List JsVal) :=
  let stepA : Except String (List JsVal) :=
    if truthy (getIdx entry 1) then
      match prepareSearchOperator entry t with
      | .error e => .error e
      | .ok (e1, op1) => .ok (setIdx e1 1 (.str op1))
    else .ok entry
  match stepA with
  | .error e => .error (e, vals, entry)
  | .ok ys =>
    let stepB : Except String (List JsVal × List JsVal) :=
      match getIdx ys 2 with
      | .undef => .ok (ys, vals)
      | _ =>
        match prepareSearchValue db table vals ys t with
        | .error e => .error e
        | .ok (vexpr, vals1) => .ok (setIdx ys 2 (.str vexpr), vals1)
    match stepB with
    | .error e => .error (e, vals, ys)
    | .ok (zs, vals1) =>
      match getLogicOperator (getIdx zs 3) operator with
      | .error e => .error (e, vals1, zs)
      | .ok lop =>
        let ws := setIdx zs 3 (.str lop)
        if ¬ logicMem lop then .error (msgJoinTypeErr, vals1, ws)
        else .ok (ws, vals1)

/-- One iteration of the `_buildSqlFromFilterArray` loop
(source lines 581-665) on the original entry `orig` (`filter[t]`):
`entry = filter[t] = filter[t].slice(0)` first (throws a `TypeError` for
values without a `slice` method - notably bare `SqlClause` objects, so the
`entry instanceof $.SqlClause` wrapping on line 593 is unreachable), then
bracket handling, string-clause preparation and emission. -/
def processEntry (q : DbQuery) (operator : String) (t : Nat)
    (sql : String) (vals : List JsVal) (ob : Bool) (orig : JsVal) : StepRes :=
  match orig with
  | .str s =>
    if s = "" then
      .err ("Error: missing search.filter[" ++ toString t ++ "] (string)") vals orig
    else if s = "(" ∨ s = ")" then bracketStep operator sql vals ob s .undef orig
    else .err ("Error: search.filter[" ++ toString t ++ "] (string) is not an array") vals orig
  | .arr xs =>
    if ¬ truthy (getIdx xs 0) then
      .err ("Error: search.filter[" ++ toString t ++ "][0] fieldname (or bracket or SqlClause) does not exist") vals (.arr xs)
    else
      match getIdx xs 0 with
      | .str s =>
        if s = "(" ∨ s = ")" then bracketStep operator sql vals ob s (getIdx xs 1) (.arr xs)
        else
          match prepareStringClause q.db q.table operator t vals xs with
          | .error (e, vals1, ea) => .err e vals1 (.arr ea)
          | .ok (ws, vals1) => emitClause t sql vals1 ob ws
      | _ => emitClause t sql vals ob xs
  | .null => .err ("TypeError: cannot read slice of null at search.filter[" ++ toString t ++ "]") vals orig
  | .undef => .err ("TypeError: cannot read slice of undefined at search.filter[" ++ toString t ++ "]") vals orig
  | _ => .err ("TypeError: search.filter[" ++ toString t ++ "].slice is not a function") vals orig

/-- The loop of `_buildSqlFromFilterArray` over the (already wrapped) entry
list.  Returns the result (`sql` fragment or thrown error), the final
`_sqlValues`, and the full entry list as left behind in the caller-visible
`filter` array (processed entries replaced by their mutated copies). -/
def buildGo (q : DbQuery) (operator : String) :
    Nat → String → List JsVal → Bool → List JsVal → Except String String × List JsVal × List JsVal
  | _, sql, vals, _, [] => (.ok sql, vals, [])
  | t, sql, vals, ob, e :: rest =>
    match processEntry q operator t sql vals ob e with
    | .ok sql1 vals1 ob1 ea =>
      let r := buildGo q operator (t + 1) sql1 vals1 ob1 rest
      (r.1, r.2.1, ea :: r.2.2)
    | .err m vals1 ea => (.error m, vals1, ea :: rest)

/-- The `search` object consumed by the query builders (only the fields the
compiler reads are modeled). -/
structure SearchObj where
  filter : JsVal
  operator : JsVal

/-- Result of a `_buildSqlFromFilterArray` call: the returned WHERE fragment
(or the thrown error), the `_sqlValues` instance field after the call (reset
at entry, so it changes even when the call throws), and the caller's
`search.filter` value after the call (the loop writes mutated entry copies
back into it, unless the spec was auto-wrapped). -/
structure BuildOut where
  res : Except String String
  vals : List JsVal
  filterAfter : JsVal

/-- Resolution of `search.operator` (source line 563):
`(search.operator && search.operator.length) ? search.operator.toUpperCase() : "AND"`.
Only a non-empty string reaches `toUpperCase`; a non-empty array is truthy
with a truthy `length` but has no `toUpperCase` and raises a `TypeError`;
every other value falls back to "AND" (either falsy, or without a truthy
`length` property). -/
def resolveOperator : JsVal → Except String String
  | .str s => .ok (if s = "" then "AND" else toUpperJS s)
  | .arr xs =>
    if xs.isEmpty then .ok "AND"
    else .error "TypeError: search.operator.toUpperCase is not a function"
  | _ => .ok "AND"

/-- `_buildSqlFromFilterArray` (source lines 551-668).  `_sqlValues` is reset
first (line 552); a non-array filter throws; an empty filter yields an empty
WHERE fragment; the default connective is validated (lines 563-566, where the
error path itself dies in the `.join` TypeError); a filter whose first
element is not an array is wrapped (`filter = [filter]`, line 569 - the
wrapper is local, so entry mutations are then invisible to the caller). -/
def buildSqlFromFilterArray (q : DbQuery) (search : SearchObj) : BuildOut :=
  match search.filter with
  | .arr [] => ⟨.ok "", [], search.filter⟩
  | .arr (e0 :: es) =>
    (match resolveOperator search.operator with
     | .error msg => ⟨.error msg, [], search.filter⟩
     | .ok operator =>
       if ¬ logicMem operator then ⟨.error msgJoinTypeErr, [], search.filter⟩
       else
         match e0 with
         | .arr ys =>
           let r := buildGo q operator 0 "" [] true (JsVal.arr ys :: es)
           ⟨r.1, r.2.1, .arr r.2.2⟩
         | _ =>
           let r := buildGo q operator 0 "" [] true [.arr (e0 :: es)]
           ⟨r.1, r.2.1, search.filter⟩)
  | f => ⟨.error ("Error: missing or wrong parameter search. got " ++ typeOf f ++ " need Array"), [], f⟩

/-- `prepareCount` (source lines 329-335): build the WHERE fragment, then
store `SELECT COUNT(*) FROM table [WHERE ...]` into `_sql`.  Returns the
result together with the instance state after the call (on a throw inside
the compiler, `_sql` is untouched but `_sqlValues` has already been
reset/partially filled). -/
def prepareCount (q : DbQuery) (search : SearchObj) : Except String String × DbQuery :=
  match buildSqlFromFilterArray q search with
  | ⟨.error e, vals, _⟩ => (.error e, ⟨q.table, q.sql, vals, q.db⟩)
  | ⟨.ok w, vals, _⟩ =>
    let s := if w = "" then "SELECT COUNT(*) FROM " ++ q.table
             else "SELECT COUNT(*) FROM " ++ q.table ++ " WHERE " ++ w
    (.ok s, ⟨q.table, s, vals, q.db⟩)

/-- An arbitrary JS value passed as the `search` argument of `count`
(source line 312): either a non-search value or an object with the search
fields. -/
inductive CountArg where
  | val : JsVal → CountArg
  | obj : SearchObj → CountArg

/-- Modelled from the spec: `$.isObject` belongs to the af framework core,
which is not part of src/.  Spec sections 3 and 9 model values as a tagged
union in which `null` is its own scalar variant distinct from objects, so
"is an object" holds exactly for the object-like variants (arrays, raw
clauses, plain objects, search objects) and fails for null, undefined and
primitives. -/
def isObjectModelled : CountArg → Bool
  | .obj _ => true
  | .val (.arr _) => true
  | .val (.sqlClause _ _) => true
  | .val .objOther => true
  | .val _ => false

/-- The `filter` property of a `count` argument; none of the modeled
non-search values carries one. -/
def argFilter : CountArg → JsVal
  | .val _ => .undef
  | .obj s => s.filter

/-- The query-building part of `count` (source lines 312-319; the execution
step is I/O on the storage collaborator and out of scope): an argument that
is not an object with a truthy `filter` is replaced by `{filter: []}`, then
`prepareCount` runs. -/
def countPrepare (q : DbQuery) (arg : CountArg) : Except String String × DbQuery :=
  let search : SearchObj :=
    if isObjectModelled arg && truthy (argFilter arg) then
      match arg with
      | .obj s => s
      | .val _ => ⟨.arr [], .undef⟩
    else ⟨.arr [], .undef⟩
  prepareCount q search

/-- `_buildSqlOrderBy` (source lines 701-729).  For a `[column, direction]`
pair the direction check on line 713 is
`!orderBy[t][1] || !orderBy[t][1].toUpperCase() in allowedDir`: by JS
precedence the second disjunct is `(!dir.toUpperCase()) in allowedDir`, i.e.
`false in {ASC, DESC}`, which is always false - so only a falsy direction is
replaced by "ASC", and any truthy string direction is upper-cased and kept
(a truthy non-string raises a `TypeError` from `.toUpperCase()`). -/
def buildSqlOrderBy (orderBy : JsVal) : Except String String :=
  if ¬ truthy orderBy then .ok ""
  else
    match orderBy with
    | .arr xs =>
      (match orderByTerms xs with
       | .error e => .error e
       | .ok terms =>
         match terms with
         | [] => .ok ""
         | _ => .ok (" ORDER BY " ++ String.intercalate ", " terms))
    | .str s => .ok (" ORDER BY " ++ s)
    | _ => .ok ""
where orderByTerms : List JsVal → Except String (List String)
  | [] => .ok []
  | .str s :: rest =>
    (match orderByTerms rest with
     | .error e => .error e
     | .ok ts => .ok (s :: ts))
  | .arr es :: rest =>
    (match es with
     | [] =>
       -- `0 in orderBy[t]` fails for an empty array: the element is ignored
       orderByTerms rest
     | _ :: _ =>
       match
         (if ¬ truthy (getIdx es 1) then Except.ok (setIdx es 1 (.str "ASC"))
          else
            match getIdx es 1 with
            | .str d => Except.ok (setIdx es 1 (.str (toUpperJS d)))
            | _ => Except.error "TypeError: orderBy[t][1].toUpperCase is not a function")
       with
       | .error e => .error e
       | .ok es1 =>
         match orderByTerms rest with
         | .error e => .error e
         | .ok ts => .ok (joinJs " " es1 :: ts))
  | _ :: rest =>
    -- neither a string nor an array: the element is ignored (line 721)
    orderByTerms rest

/-- Has a piece of text no `?` placeholder token? -/
def noQ (s : String) : Bool := countQ s == 0

/-- Value kinds that `_pushValue` accepts (everything except `SqlClause`
objects, other objects, and `undefined`). -/
def pushable : JsVal → Bool
  | .sqlClause _ _ => false
  | .objOther => false
  | .undef => false
  | _ => true

/-- Well-formedness of a predicate value for the placeholder/parameter
balance: an embedded raw clause must carry exactly as many `?` tokens in its
text as bound values, and every element of an array value must be of a kind
`_pushValue` accepts (the source ignores `_pushValue`'s failure inside the
BETWEEN/IN loops, silently dropping the parameter while the placeholder is
still emitted). -/
def valueOk : JsVal → Bool
  | .sqlClause t vs => countQ t == vs.length
  | .arr es => es.all pushable
  | _ => true

/-- Well-formedness of one filter entry for the placeholder/parameter
balance: column names must not contain `?`, predicate values must satisfy
`valueOk`, and a raw-clause entry must be balanced with a `?`-free
connective slot (slot 3 is emitted into the SQL text verbatim for raw-clause
entries). -/
def entryOk : JsVal → Bool
  | .arr xs =>
    (match getIdx xs 0 with
     | .str c => if c = "(" ∨ c = ")" then true else noQ c && valueOk (getIdx xs 2)
     | .sqlClause t vs => (countQ t == vs.length) && noQ (jsToString (getIdx xs 3))
     | _ => true)
  | _ => true

/-- Well-formedness of a whole filter specification for the
placeholder/parameter balance, following the auto-wrap of line 569: when the
first element is not an array the whole spec is one entry. -/
def filterOk : JsVal → Bool
  | .arr [] => true
  | .arr (e :: es) =>
    (match e with
     | .arr ys => entryOk (.arr ys) && es.all entryOk
     | _ => entryOk (.arr (e :: es)))
  | _ => true

/-- A sample builder instance over the default storage collaborator, used by
the concrete evaluations below. -/
def dq0 : DbQuery := ⟨"tbl", "", [], defaultDb⟩

theorem countQ_append (a b : String) : countQ (a ++ b) = countQ a + countQ b := by
  cases a with
  | mk xa =>
    cases b with
    | mk xb => exact List.count_append '?' xa xb

theorem countQ_str (s : String) : countQ (jsElemToString (.str s)) = countQ s := rfl

theorem getIdx_nil (i : Nat) : getIdx [] i = .undef := by cases i <;> rfl

theorem getIdx_setIdx_self (l : List JsVal) (i : Nat) (v : JsVal) :
    getIdx (setIdx l i v) i = v := by
  induction i generalizing l with
  | zero => cases l <;> rfl
  | succ n ih => cases l <;> simp [setIdx, getIdx] <;> exact ih _

theorem getIdx_setIdx_ne (l : List JsVal) (i j : Nat) (v : JsVal) (h : i ≠ j) :
    getIdx (setIdx l i v) j = getIdx l j := by
  induction i generalizing l j with
  | zero =>
    cases j with
    | zero => exact absurd rfl h
    | succ m => cases l <;> simp [setIdx, getIdx, getIdx_nil]
  | succ n ih =>
    cases j with
    | zero => cases l <;> rfl
    | succ m =>
      have hnm : n ≠ m := fun he => h (by rw [he])
      cases l with
      | nil =>
        simp only [setIdx, getIdx]
        rw [ih [] m hnm, getIdx_nil]
      | cons x xs =>
        simp only [setIdx, getIdx]
        exact ih xs m hnm

theorem length_setIdx (l : List JsVal) (i : Nat) (v : JsVal) :
    i + 1 ≤ (setIdx l i v).length := by
  induction i generalizing l with
  | zero => cases l <;> simp [setIdx]
  | succ n ih => cases l <;> simp [setIdx] <;> exact ih _

theorem pushValue_str (vals : List JsVal) (s : String) :
    pushValue vals (.str s) = some (vals ++ [.str s]) := rfl

/-- A pushable value is pushed, exactly one parameter longer. -/
theorem pushable_push (vals : List JsVal) (v : JsVal) (h : pushable v = true) :
    ∃ w, pushValue vals v = some w ∧ w.length = vals.length + 1 := by
  cases v with
  | str s => exact ⟨_, rfl, by simp⟩
  | num n => exact ⟨_, rfl, by simp⟩
  | boolean b => exact ⟨_, rfl, by simp⟩
  | null => exact ⟨_, rfl, by simp⟩
  | date iso => exact ⟨_, rfl, by simp⟩
  | arr xs =>
    unfold pushValue
    by_cases hc : (isString (JsVal.arr xs) || isNumeric (JsVal.arr xs)) = true
    · rw [if_pos hc]; exact ⟨_, rfl, by simp⟩
    · rw [if_neg hc]; exact ⟨_, rfl, by simp⟩
  | sqlClause t vs => exact absurd h (by simp [pushable])
  | objOther => exact absurd h (by simp [pushable])
  | undef => exact absurd h (by simp [pushable])

/-- Balance of the IN-style placeholder loop: with the default `?`
placeholder and pushable elements, the text gains one `?` per element and the
parameter list one entry per element. -/
theorem inPlaceholders_balance (xs : List JsVal) :
    ∀ (vals : List JsVal) (tmp : String) (first : Bool), xs.all pushable = true →
      countQ (inPlaceholders "?" vals xs tmp first).1 = countQ tmp + xs.length ∧
      (inPlaceholders "?" vals xs tmp first).2.length = vals.length + xs.length := by
  induction xs with
  | nil => intro vals tmp first _; simp [inPlaceholders]
  | cons v rest ih =>
    intro vals tmp first hall
    rw [List.all_cons, Bool.and_eq_true] at hall
    obtain ⟨w, hw, hlen⟩ := pushable_push vals v hall.1
    have hrec := ih w (tmp ++ (if first then "" else ", ") ++ "?") false hall.2
    simp only [inPlaceholders, hw, Option.getD_some]
    constructor
    · have hsep : countQ (if first then "" else ", ") = 0 := by
        cases first <;> rfl
      have hq : countQ "?" = 1 := rfl
      have h1 : countQ ((tmp ++ (if first then "" else ", ")) ++ "?") = countQ tmp + 1 := by
        rw [countQ_append, countQ_append, hsep, hq]
      rw [hrec.1, h1, List.length_cons]
      omega
    · rw [hrec.2, hlen, List.length_cons]
      omega

theorem opCatalog_noQ (s : String) (h : opCatalogMem s = true) : countQ s = 0 := by
  have hmem : s ∈ SQL_OPERATORS ∨ s ∈ SQL_OPERATORS_ARRAY := by
    rw [opCatalogMem, Bool.or_eq_true] at h
    rcases h with h | h
    · exact Or.inl (by simpa using h)
    · exact Or.inr (by simpa using h)
  rcases hmem with h | h <;> fin_cases h <;> rfl

theorem logic_noQ (s : String) (h : logicMem s = true) : countQ s = 0 := by
  have hmem : s ∈ SQL_OPERATORS_LOGIC := by simpa [logicMem] using h
  fin_cases hmem <;> rfl

theorem logic_toUpper_fixed (s : String) (h : logicMem s = true) : toUpperJS s = s := by
  have hmem : s ∈ SQL_OPERATORS_LOGIC := by simpa [logicMem] using h
  fin_cases hmem <;> rfl

/-- `_getLogicOperator` only ever returns members of the connective set when
its default is valid (or empty, which defaults to AND). -/
theorem getLogicOperator_mem (v : JsVal) (d r : String)
    (hd : d = "" ∨ logicMem d = true) (h : getLogicOperator v d = .ok r) :
    logicMem r = true := by
  have hup : logicMem (toUpperJS (if d = "" then "AND" else d)) = true := by
    by_cases hde : d = ""
    · rw [if_pos hde]; rfl
    · rw [if_neg hde]
      rcases hd with hd | hd
      · exact absurd hd hde
      · rw [logic_toUpper_fixed d hd]; exact hd
  unfold getLogicOperator at h
  by_cases ht : truthy v = true
  · rw [if_pos ht] at h
    cases v with
    | str s =>
      have h2 : (Except.ok
          (if logicMem (toUpperJS s) = true then toUpperJS s
           else toUpperJS (if d = "" then "AND" else d)) : Except String String) = Except.ok r := h
      by_cases hm : logicMem (toUpperJS s) = true
      · rw [if_pos hm] at h2
        cases h2; exact hm
      · rw [if_neg hm] at h2
        cases h2; exact hup
    | num n => exact Except.noConfusion h
    | boolean b => exact Except.noConfusion h
    | null => exact Except.noConfusion h
    | undef => exact Except.noConfusion h
    | date iso => exact Except.noConfusion h
    | arr xs => exact Except.noConfusion h
    | sqlClause t vs => exact Except.noConfusion h
    | objOther => exact Except.noConfusion h
  · rw [if_neg ht] at h
    cases h; exact hup

/-- A falsy slot renders without `?` in `Array.prototype.join`. -/
theorem falsy_elem_noQ (v : JsVal) (h : truthy v = false) :
    countQ (jsElemToString v) = 0 := by
  cases v with
  | str s =>
    have hs : s = "" := by simpa [truthy] using h
    subst hs; rfl
  | num n =>
    have hn : n = 0 := by simpa [truthy] using h
    subst hn; rfl
  | boolean b =>
    have hb : b = false := by simpa [truthy] using h
    subst hb; rfl
  | null => rfl
  | undef => rfl
  | date iso => exact absurd h (by simp [truthy])
  | arr xs => exact absurd h (by simp [truthy])
  | sqlClause t vs => exact absurd h (by simp [truthy])
  | objOther => exact absurd h (by simp [truthy])

/-- `entry.length = 3` on a list of length at least four keeps the first
three slots. -/
theorem jsSetLength3_of_ge4 (l : List JsVal) (h : 4 ≤ l.length) :
    jsSetLength3 l = [getIdx l 0, getIdx l 1, getIdx l 2] := by
  match l, h with
  | a :: b :: c :: d :: rest, _ =>
    simp [jsSetLength3, getIdx, List.take]

theorem joinJs_three (a b c : JsVal) :
    joinJs " " [a, b, c]
      = jsElemToString a ++ " " ++ (jsElemToString b ++ " " ++ jsElemToString c) := by
  simp [joinJs, String.append_assoc]

/-- A successful `_prepareSearchOperator` call either returns the entry
untouched with a catalog operator, or (for ISNULL/NOT ISNULL) rewrites the
entry to a bare value-less clause with connective slot "AND" and returns the
empty operator. -/
theorem prepareSearchOperator_cases (entry : List JsVal) (t : Nat) (e2 : List JsVal) (op2 : String)
    (h : prepareSearchOperator entry t = .ok (e2, op2)) :
    (e2 = entry ∧ opCatalogMem op2 = true) ∨
    (op2 = "" ∧ ∃ opU, opCatalogMem opU = true ∧
      e2 = setIdx (setIdx (setIdx entry 0
        (.sqlClause (opU ++ "(" ++ jsToString (getIdx entry 0) ++ ")") [])) 2 .undef) 3 (.str "AND")) := by
  unfold prepareSearchOperator at h
  split at h
  · exact Except.noConfusion h
  · split at h
    case _ s heq =>
      dsimp only at h
      split at h
      · exact Except.noConfusion h
      · split at h
        · rw [getIdx_setIdx_self] at h
          rw [show getLogicOperator JsVal.undef "" = Except.ok "AND" from rfl] at h
          injection h with h1
          injection h1 with h2 h3
          refine Or.inr ⟨h3.symm, toUpperJS (trimJs s), ?_, h2.symm⟩
          · simp_all
        · injection h with h1
          injection h1 with h2 h3
          refine Or.inl ⟨h2.symm, ?_⟩
          · rw [← h3]
            simp_all
    case _ =>
      exact Except.noConfusion h

theorem placeholder_default (table : String) (col : JsVal) :
    getColumnPlaceholder defaultDb table col = "?" := rfl

theorem pushValue_some_length (vals : List JsVal) (v : JsVal) (w : List JsVal)
    (h : pushValue vals v = some w) : w.length = vals.length + 1 := by
  cases v with
  | str s =>
    have h2 : some (vals ++ [JsVal.str s]) = some w := h
    injection h2 with h1
    rw [← h1]; simp
  | num n =>
    have h2 : some (vals ++ [JsVal.num n]) = some w := h
    injection h2 with h1
    rw [← h1]; simp
  | boolean b =>
    have h2 : some (vals ++ [JsVal.num (cond b 1 0)]) = some w := h
    injection h2 with h1
    rw [← h1]; simp
  | null =>
    have h2 : some (vals ++ [JsVal.str "NULL"]) = some w := h
    injection h2 with h1
    rw [← h1]; simp
  | date iso =>
    have h2 : some (vals ++ [JsVal.str iso]) = some w := h
    injection h2 with h1
    rw [← h1]; simp
  | arr xs =>
    unfold pushValue at h
    by_cases hc : (isString (JsVal.arr xs) || isNumeric (JsVal.arr xs)) = true
    · rw [if_pos hc] at h; injection h with h1; rw [← h1]; simp
    · rw [if_neg hc] at h; injection h with h1; rw [← h1]; simp
  | sqlClause t vs => exact Option.noConfusion h
  | objOther => exact Option.noConfusion h
  | undef => exact Option.noConfusion h

/-- Balance of the scalar-value path of `_prepareSearchValue`: one
placeholder, one pushed parameter. -/
theorem scalarPush_balance (table : String) (colv : JsVal) (msg : String) (v : JsVal)
    (vals : List JsVal) (vexpr : String) (vals2 : List JsVal)
    (h : (match pushValue vals v with
          | some vals1 => Except.ok (getColumnPlaceholder defaultDb table colv, vals1)
          | none => Except.error msg) = Except.ok (vexpr, vals2)) :
    countQ vexpr + vals.length = vals2.length := by
  split at h
  case _ vals1 heq =>
    injection h with h1
    injection h1 with hA hB
    have hlen := pushValue_some_length vals v vals1 heq
    rw [← hA, ← hB, placeholder_default]
    have hq : countQ "?" = 1 := rfl
    omega
  case _ => exact Except.noConfusion h

/-- Balance of the array-operator path of `_prepareSearchValue` (BETWEEN
emits two placeholders and two pushes, IN-style one per element). -/
theorem arrOpBalance (operator : JsVal) (table : String) (colv : JsVal)
    (msg1 : String) (xs vals : List JsVal) (vexpr : String) (vals2 : List JsVal)
    (hall : xs.all pushable = true)
    (h : (match operator with
          | JsVal.str "BETWEEN" =>
            if xs.length ≠ 2 then Except.error msg1
            else
              Except.ok (getColumnPlaceholder defaultDb table colv ++ " AND " ++
                  getColumnPlaceholder defaultDb table colv,
                (pushValue ((pushValue vals (getIdx xs 0)).getD vals) (getIdx xs 1)).getD
                  ((pushValue vals (getIdx xs 0)).getD vals))
          | _ =>
            Except.ok ((inPlaceholders (getColumnPlaceholder defaultDb table colv) vals xs "(" true).1 ++ ")",
              (inPlaceholders (getColumnPlaceholder defaultDb table colv) vals xs "(" true).2))
        = Except.ok (vexpr, vals2)) :
    countQ vexpr + vals.length = vals2.length := by
  rw [placeholder_default] at h
  split at h
  · -- BETWEEN
    split at h
    · exact Except.noConfusion h
    case _ hlen2 =>
      injection h with h1
      injection h1 with hA hB
      have hxs : xs.length = 2 := by omega
      obtain ⟨a, b, rfl⟩ := List.length_eq_two.mp hxs
      rw [List.all_cons, List.all_cons, Bool.and_eq_true, Bool.and_eq_true] at hall
      obtain ⟨w1, hw1, hl1⟩ := pushable_push vals a hall.1
      obtain ⟨w2, hw2, hl2⟩ := pushable_push w1 b hall.2.1
      have hg0 : getIdx [a, b] 0 = a := rfl
      have hg1 : getIdx [a, b] 1 = b := rfl
      rw [hg0, hg1, hw1, Option.getD_some, hw2, Option.getD_some] at hB
      rw [← hA, ← hB]
      have hq : countQ ("?" ++ " AND " ++ "?") = 2 := rfl
      omega
  · -- IN-style
    injection h with h1
    injection h1 with hA hB
    have hbal := inPlaceholders_balance xs vals "(" true hall
    rw [← hA, ← hB]
    rw [countQ_append, hbal.1, hbal.2]
    have h1 : countQ "(" = 0 := rfl
    have h2 : countQ ")" = 0 := rfl
    omega

/-- Balance of `_prepareSearchValue`: on success, the number of `?` in the
produced value expression equals the number of values appended to
`_sqlValues` (under `valueOk` for the raw value). -/
theorem prepareSearchValue_balance (table : String) (vals : List JsVal) (entry : List JsVal)
    (t : Nat) (vexpr : String) (vals2 : List JsVal)
    (hok : valueOk (getIdx entry 2) = true)
    (h : prepareSearchValue defaultDb table vals entry t = .ok (vexpr, vals2)) :
    countQ vexpr + vals.length = vals2.length := by
  unfold prepareSearchValue at h
  cases hv : getIdx entry 2 with
  | undef => rw [hv] at h; exact Except.noConfusion h
  | str s =>
    rw [hv] at h
    dsimp only at h
    by_cases harr : SQL_OPERATORS_ARRAY.contains (jsToString (getIdx entry 1)) = true
    · rw [if_pos harr] at h
      exact scalarPush_balance table (getIdx entry 0)
        ("Error: unsupported value in search[" ++ toString t ++ "][2]")
        (JsVal.arr ((splitCommaWs s).map JsVal.str)) vals vexpr vals2 h
    · rw [if_neg harr] at h
      exact scalarPush_balance table (getIdx entry 0)
        ("Error: unsupported value in search[" ++ toString t ++ "][2]")
        (JsVal.str s) vals vexpr vals2 h
  | arr xs =>
    rw [hv] at h
    rw [hv] at hok
    dsimp only at h
    have hall : xs.all pushable = true := by simpa [valueOk] using hok
    by_cases harr : SQL_OPERATORS_ARRAY.contains (jsToString (getIdx entry 1)) = true
    · rw [if_neg (not_not_intro harr)] at h
      exact arrOpBalance (getIdx entry 1) table (getIdx entry 0) _ _ _ _ _ hall h
    · rw [if_pos harr] at h
      exact Except.noConfusion h
  | sqlClause t2 cv =>
    rw [hv] at h
    rw [hv] at hok
    have h2 : (Except.ok (t2, if 0 < cv.length then vals ++ cv else vals)
        : Except String (String × List JsVal)) = .ok (vexpr, vals2) := h
    injection h2 with h1
    injection h1 with hA hB
    have hcnt : countQ t2 = cv.length := by simpa [valueOk] using hok
    rw [← hA, ← hB, hcnt]
    by_cases hpos : 0 < cv.length
    · rw [if_pos hpos, List.length_append]; omega
    · rw [if_neg hpos]; omega
  | num n =>
    rw [hv] at h
    exact scalarPush_balance table (getIdx entry 0) ("Error: unsupported value in search[" ++ toString t ++ "][2]") (JsVal.num n) vals vexpr vals2 h
  | boolean b =>
    rw [hv] at h
    exact scalarPush_balance table (getIdx entry 0) ("Error: unsupported value in search[" ++ toString t ++ "][2]") (JsVal.boolean b) vals vexpr vals2 h
  | null =>
    rw [hv] at h
    exact scalarPush_balance table (getIdx entry 0) ("Error: unsupported value in search[" ++ toString t ++ "][2]") JsVal.null vals vexpr vals2 h
  | date iso =>
    rw [hv] at h
    exact scalarPush_balance table (getIdx entry 0) ("Error: unsupported value in search[" ++ toString t ++ "][2]") (JsVal.date iso) vals vexpr vals2 h
  | objOther =>
    rw [hv] at h
    exact scalarPush_balance table (getIdx entry 0) ("Error: unsupported value in search[" ++ toString t ++ "][2]") JsVal.objOther vals vexpr vals2 h

theorem noQ_eq (s : String) (h : noQ s = true) : countQ s = 0 := by
  simpa [noQ] using h

theorem jsToString_str (s : String) : jsToString (.str s) = s := rfl

/-- Spec of the string-clause preparation steps: on success the prepared
entry has a valid connective in slot 3, is at least four slots long, and its
head is either still the column string (with `?`-free operator slot and a
value slot whose `?` count matches the number of pushed parameters) or the
value-less ISNULL clause (no `?`, nothing pushed). -/
theorem prepareStringClause_emit (table operator : String) (t : Nat)
    (vals xs ws vals1 : List JsVal) (c : String)
    (hop : logicMem operator = true)
    (hhead : getIdx xs 0 = .str c) (hnq : noQ c = true)
    (hvok : valueOk (getIdx xs 2) = true)
    (h : prepareStringClause defaultDb table operator t vals xs = .ok (ws, vals1)) :
    countQ (jsToString (getIdx ws 3)) = 0 ∧ 4 ≤ ws.length ∧
    ((∃ c2, getIdx ws 0 = JsVal.str c2 ∧
        countQ (jsElemToString (getIdx ws 0)) + countQ (jsElemToString (getIdx ws 1)) +
          countQ (jsElemToString (getIdx ws 2)) + vals.length = vals1.length) ∨
     (∃ text, getIdx ws 0 = JsVal.sqlClause text [] ∧ countQ text = 0 ∧ vals1 = vals)) := by
  unfold prepareStringClause at h
  dsimp only at h
  split at h
  · exact Except.noConfusion h
  next ys heqA =>
    have hstepA :
        (getIdx ys 0 = getIdx xs 0 ∧ getIdx ys 2 = getIdx xs 2 ∧
          countQ (jsElemToString (getIdx ys 1)) = 0) ∨
        (∃ text, getIdx ys 0 = JsVal.sqlClause text [] ∧ countQ text = 0 ∧
          getIdx ys 2 = JsVal.undef) := by
      split at heqA
      · split at heqA
        · exact Except.noConfusion heqA
        next e1 op1 heqOp =>
          injection heqA with heqA1
          rcases prepareSearchOperator_cases xs t e1 op1 heqOp with ⟨rfl, hcat⟩ | ⟨rfl, opU, hcat, rfl⟩
          · refine Or.inl ⟨?_, ?_, ?_⟩ <;> rw [← heqA1]
            · exact getIdx_setIdx_ne _ _ _ _ (by omega)
            · exact getIdx_setIdx_ne _ _ _ _ (by omega)
            · rw [getIdx_setIdx_self]
              have : jsElemToString (JsVal.str op1) = op1 := rfl
              rw [this]
              exact opCatalog_noQ op1 hcat
          · refine Or.inr ⟨opU ++ "(" ++ jsToString (getIdx xs 0) ++ ")", ?_, ?_, ?_⟩
            · rw [← heqA1]
              rw [getIdx_setIdx_ne _ _ _ _ (by omega : (1 : Nat) ≠ 0)]
              rw [getIdx_setIdx_ne _ _ _ _ (by omega : (3 : Nat) ≠ 0)]
              rw [getIdx_setIdx_ne _ _ _ _ (by omega : (2 : Nat) ≠ 0)]
              rw [getIdx_setIdx_self]
            · rw [hhead, jsToString_str]
              rw [countQ_append, countQ_append, countQ_append]
              have h1 : countQ "(" = 0 := rfl
              have h2 : countQ ")" = 0 := rfl
              have h3 := opCatalog_noQ opU hcat
              have h4 := noQ_eq c hnq
              omega
            · rw [← heqA1]
              rw [getIdx_setIdx_ne _ _ _ _ (by omega : (1 : Nat) ≠ 2)]
              rw [getIdx_setIdx_ne _ _ _ _ (by omega : (3 : Nat) ≠ 2)]
              rw [getIdx_setIdx_self]
      · next hfal =>
          injection heqA with heqA1
          rw [← heqA1]
          refine Or.inl ⟨rfl, rfl, ?_⟩
          refine falsy_elem_noQ _ ?_
          revert hfal
          cases truthy (getIdx xs 1) <;> simp
    split at h
    · exact Except.noConfusion h
    next zs vals1x heqB =>
      have hstepB :
          getIdx zs 0 = getIdx ys 0 ∧
          countQ (jsElemToString (getIdx zs 1)) = countQ (jsElemToString (getIdx ys 1)) ∧
          countQ (jsElemToString (getIdx zs 2)) + vals.length = vals1x.length ∧
          (∀ text, getIdx ys 0 = JsVal.sqlClause text [] → vals1x = vals) := by
        split at heqB
        next hundef =>
          injection heqB with hB1
          injection hB1 with hB2 hB3
          rw [← hB2, ← hB3]
          refine ⟨rfl, rfl, ?_, fun _ _ => rfl⟩
          rw [hundef]
          have h0 : jsElemToString JsVal.undef = "" := rfl
          rw [h0]
          have h1 : countQ "" = 0 := rfl
          omega
        next hnundef =>
          split at heqB
          · exact Except.noConfusion heqB
          next vexpr v1 heqV =>
            injection heqB with hB1
            injection hB1 with hB2 hB3
            have hvok2 : valueOk (getIdx ys 2) = true := by
              rcases hstepA with ⟨_, hy2, _⟩ | ⟨text, _, _, hy2⟩
              · rw [hy2]; exact hvok
              · rw [hy2]; rfl
            have hbal := prepareSearchValue_balance table vals ys t vexpr v1 hvok2 heqV
            rw [← hB2, ← hB3]
            refine ⟨getIdx_setIdx_ne _ _ _ _ (by omega),
              by rw [getIdx_setIdx_ne _ _ _ _ (by omega : (2 : Nat) ≠ 1)], ?_, ?_⟩
            · rw [getIdx_setIdx_self]
              have h0 : jsElemToString (JsVal.str vexpr) = vexpr := rfl
              rw [h0]
              exact hbal
            · intro text htext
              exfalso
              rcases hstepA with ⟨hy0, _, _⟩ | ⟨text2, hy0, _, hy2⟩
              · rw [hy0, hhead] at htext
                exact JsVal.noConfusion htext
              · exact hnundef hy2
      split at h
      · exact Except.noConfusion h
      next lop heqC =>
        have hmem : logicMem lop = true :=
          getLogicOperator_mem _ _ _ (Or.inr hop) heqC
        rw [if_neg (not_not_intro hmem)] at h
        injection h with h1
        injection h1 with hW hV
        rw [← hW, ← hV]
        obtain ⟨hz0, hz1, hz2, hzcl⟩ := hstepB
        refine ⟨?_, ?_, ?_⟩
        · rw [getIdx_setIdx_self, jsToString_str]
          exact logic_noQ lop hmem
        · exact length_setIdx zs 3 (.str lop)
        · rcases hstepA with ⟨hy0, hy2, hy1⟩ | ⟨text, hy0, htq, hy2⟩
          · refine Or.inl ⟨c, ?_, ?_⟩
            · rw [getIdx_setIdx_ne _ _ _ _ (by omega : (3 : Nat) ≠ 0), hz0, hy0, hhead]
            · rw [getIdx_setIdx_ne _ _ _ _ (by omega : (3 : Nat) ≠ 0)]
              rw [getIdx_setIdx_ne _ _ _ _ (by omega : (3 : Nat) ≠ 1)]
              rw [getIdx_setIdx_ne _ _ _ _ (by omega : (3 : Nat) ≠ 2)]
              rw [hz0, hy0, hhead, hz1, hy1]
              have h0 : jsElemToString (JsVal.str c) = c := rfl
              rw [h0, noQ_eq c hnq]
              omega
          · refine Or.inr ⟨text, ?_, htq, hzcl text hy0⟩
            rw [getIdx_setIdx_ne _ _ _ _ (by omega : (3 : Nat) ≠ 0), hz0, hy0]

theorem bracketStep_balance (operator sql : String) (vals : List JsVal) (ob : Bool)
    (tok : String) (ovr ea : JsVal)
    (hop : logicMem operator = true) (hinv : countQ sql = vals.length)
    (sql1 : String) (vals1 : List JsVal) (ob1 : Bool) (ea1 : JsVal)
    (h : bracketStep operator sql vals ob tok ovr ea = .ok sql1 vals1 ob1 ea1) :
    countQ sql1 = vals1.length := by
  unfold bracketStep at h
  split at h
  · split at h
    · injection h with h1 h2 h3 h4
      rw [← h1, ← h2, countQ_append]
      have h0 : countQ "(" = 0 := rfl
      omega
    · split at h
      · exact StepRes.noConfusion h
      next lop heq =>
        injection h with h1 h2 h3 h4
        rw [← h1, ← h2, countQ_append, countQ_append, countQ_append]
        have h0 : countQ "(" = 0 := rfl
        have hsp : countQ " " = 0 := rfl
        have hl := logic_noQ lop (getLogicOperator_mem _ _ _ (Or.inr hop) heq)
        omega
  · injection h with h1 h2 h3 h4
    rw [← h1, ← h2, countQ_append]
    have h0 : countQ ")" = 0 := rfl
    omega

/-- The per-entry invariant of the compile loop: a successfully processed
entry adds exactly as many `?` tokens to the SQL text as parameters to
`_sqlValues`. -/
theorem processEntry_balance (q : DbQuery) (hq : q.db = defaultDb) (operator : String)
    (hop : logicMem operator = true) (t : Nat) (sql : String) (vals : List JsVal) (ob : Bool)
    (e : JsVal) (he : entryOk e = true) (hinv : countQ sql = vals.length)
    (sql1 : String) (vals1 : List JsVal) (ob1 : Bool) (ea : JsVal)
    (hstep : processEntry q operator t sql vals ob e = .ok sql1 vals1 ob1 ea) :
    countQ sql1 = vals1.length := by
  have hpre0 : ∀ ws : List JsVal, countQ (jsToString (getIdx ws 3)) = 0 →
      countQ (if ob then "" else " " ++ jsToString (getIdx ws 3) ++ " ") = 0 := by
    intro ws h3
    cases ob
    · rw [if_neg (by simp)]
      rw [countQ_append, countQ_append, h3]
      rfl
    · rw [if_pos rfl]
      rfl
  cases e with
  | str s =>
    simp only [processEntry] at hstep
    split at hstep
    · exact StepRes.noConfusion hstep
    · split at hstep
      · exact bracketStep_balance operator sql vals ob s .undef _ hop hinv sql1 vals1 ob1 ea hstep
      · exact StepRes.noConfusion hstep
  | arr xs =>
    simp only [processEntry] at hstep
    split at hstep
    · exact StepRes.noConfusion hstep
    next htr =>
      split at hstep
      next s heq0 =>
        split at hstep
        · exact bracketStep_balance operator sql vals ob s (getIdx xs 1) _ hop hinv sql1 vals1 ob1 ea hstep
        next hnb =>
          -- entryOk facts for a column entry
          have he2 : noQ s = true ∧ valueOk (getIdx xs 2) = true := by
            simp only [entryOk, heq0] at he
            rw [if_neg hnb] at he
            rw [Bool.and_eq_true] at he
            exact he
          split at hstep
          · exact StepRes.noConfusion hstep
          next ws vals1x heqP =>
            rw [hq] at heqP
            have hfacts := prepareStringClause_emit q.table operator t vals xs ws vals1x s
              hop heq0 he2.1 he2.2 heqP
            obtain ⟨h3, hlen, hdisj⟩ := hfacts
            have hp := hpre0 ws h3
            unfold emitClause at hstep
            dsimp only at hstep
            generalize hg : (if ob = true then "" else " " ++ jsToString (getIdx ws 3) ++ " ") = pre at hstep
            rw [hg] at hp
            split at hstep
            next c2 heqw =>
              injection hstep with hs1 hs2 hs3 hs4
              rw [← hs1, ← hs2]
              rcases hdisj with ⟨c3, hw0, hsum⟩ | ⟨text, hw0, _, _⟩
              · rw [jsSetLength3_of_ge4 ws hlen, joinJs_three]
                simp only [countQ_append]
                have hq1 : countQ "(" = 0 := rfl
                have hq2 : countQ ")" = 0 := rfl
                have hsp : countQ " " = 0 := rfl
                omega
              · rw [heqw] at hw0
                exact JsVal.noConfusion hw0
            next text cvals heqw =>
              injection hstep with hs1 hs2 hs3 hs4
              rw [← hs1, ← hs2]
              rcases hdisj with ⟨c3, hw0, hsum⟩ | ⟨text2, hw0, htq, hveq⟩
              · rw [heqw] at hw0
                exact JsVal.noConfusion hw0
              · rw [heqw] at hw0
                injection hw0 with hw1 hw2
                rw [hw2]
                rw [if_neg (by simp)]
                simp only [countQ_append]
                have hq1 : countQ "(" = 0 := rfl
                have hq2 : countQ ")" = 0 := rfl
                rw [hw1, htq, hveq]
                omega
            · exact StepRes.noConfusion hstep
      next hnstr =>
        -- non-string head: direct emitClause
        unfold emitClause at hstep
        dsimp only at hstep
        generalize hg : (if ob = true then "" else " " ++ jsToString (getIdx xs 3) ++ " ") = pre at hstep
        split at hstep
        next c2 heqw => exact absurd heqw (hnstr c2)
        next text cvals heqw =>
          injection hstep with hs1 hs2 hs3 hs4
          rw [← hs1, ← hs2]
          have he2 : countQ text = cvals.length ∧ countQ (jsToString (getIdx xs 3)) = 0 := by
            simp only [entryOk, heqw] at he
            rw [Bool.and_eq_true] at he
            exact ⟨by simpa using he.1, noQ_eq _ he.2⟩
          have hp := hpre0 xs he2.2
          rw [hg] at hp
          by_cases hcv : 0 < cvals.length
          · rw [if_pos hcv, List.length_append]
            simp only [countQ_append]
            have hq1 : countQ "(" = 0 := rfl
            have hq2 : countQ ")" = 0 := rfl
            have := he2.1
            omega
          · rw [if_neg hcv]
            simp only [countQ_append]
            have hq1 : countQ "(" = 0 := rfl
            have hq2 : countQ ")" = 0 := rfl
            have := he2.1
            omega
        · exact StepRes.noConfusion hstep
  | num n =>
    simp only [processEntry] at hstep
    exact StepRes.noConfusion hstep
  | boolean b =>
    simp only [processEntry] at hstep
    exact StepRes.noConfusion hstep
  | null =>
    simp only [processEntry] at hstep
    exact StepRes.noConfusion hstep
  | undef =>
    simp only [processEntry] at hstep
    exact StepRes.noConfusion hstep
  | date iso =>
    simp only [processEntry] at hstep
    exact StepRes.noConfusion hstep
  | sqlClause t2 vs =>
    simp only [processEntry] at hstep
    exact StepRes.noConfusion hstep
  | objOther =>
    simp only [processEntry] at hstep
    exact StepRes.noConfusion hstep

/-- The loop invariant extended over the whole entry list. -/
theorem buildGo_balance (q : DbQuery) (hq : q.db = defaultDb) (operator : String)
    (hop : logicMem operator = true) :
    ∀ (es : List JsVal) (t : Nat) (sql : String) (vals : List JsVal) (ob : Bool),
      es.all entryOk = true → countQ sql = vals.length →
      ∀ w vals1 efin, buildGo q operator t sql vals ob es = (.ok w, vals1, efin) →
        countQ w = vals1.length := by
  intro es
  induction es with
  | nil =>
    intro t sql vals ob _ hinv w vals1 efin h
    unfold buildGo at h
    injection h with h1 h2
    injection h1 with h1
    rw [← h1]
    injection h2 with h2
    rw [← h2]
    exact hinv
  | cons e rest ih =>
    intro t sql vals ob hall hinv w vals1 efin h
    rw [List.all_cons, Bool.and_eq_true] at hall
    unfold buildGo at h
    split at h
    next sql2 vals2 ob2 ea2 hpe =>
      injection h with h1 h2
      injection h2 with h2 h3
      have hinv2 := processEntry_balance q hq operator hop t sql vals ob e hall.1 hinv
        sql2 vals2 ob2 ea2 hpe
      exact ih (t + 1) sql2 vals2 ob2 hall.2 hinv2 w vals1 _ (by
        rw [← h1, ← h2])
    next m vals2 ea2 hpe =>
      injection h with h1 h2
      exact Except.noConfusion h1

/-- C2 amended: for every filter specification that compiles successfully
over the default storage collaborator (placeholder `?`), and in which every
embedded raw clause carries exactly as many `?` tokens in its text as bound
values, no column string contains `?`, every element of an array-operator
value is of a kind `_pushValue` accepts, and the connective slot of a
raw-clause entry renders without `?`, the length of the returned parameter
list equals the number of `?` placeholder tokens in the returned SQL text
(both are accumulated left to right by the same pass). -/
theorem c2_balance_amended (q : DbQuery) (search : SearchObj) (w : String)
    (hq : q.db = defaultDb)
    (hok : filterOk search.filter = true)
    (hres : (buildSqlFromFilterArray q search).res = .ok w) :
    countQ w = (buildSqlFromFilterArray q search).vals.length := by
  rcases hBo : buildSqlFromFilterArray q search with ⟨res0, vals0, fa0⟩
  rw [hBo] at hres
  dsimp only at hres ⊢
  unfold buildSqlFromFilterArray at hBo
  split at hBo
  next hfil =>
    injection hBo with hb1 hb2 hb3
    rw [← hb1] at hres
    injection hres with hres1
    rw [← hres1, ← hb2]
    rfl
  next e0 es hfil =>
    dsimp only at hBo
    split at hBo
    next msg heqOp =>
      injection hBo with hb1 hb2 hb3
      rw [← hb1] at hres
      exact Except.noConfusion hres
    next operator heqOp =>
      split at hBo
      next hnm =>
        injection hBo with hb1 hb2 hb3
        rw [← hb1] at hres
        exact Except.noConfusion hres
      next hnm =>
        have hmem : logicMem operator = true := by
          revert hnm
          cases logicMem operator <;> simp
        have hall : ∀ entries : List JsVal, entries.all entryOk = true →
            ∀ r : Except String String × List JsVal × List JsVal,
              buildGo q operator 0 "" [] true entries = r →
              r.1 = Except.ok w → countQ w = r.2.1.length := by
          intro entries hentries r hr hres2
          rcases r with ⟨r1, r2, r3⟩
          dsimp only at hres2 ⊢
          rw [hres2] at hr
          exact buildGo_balance q hq operator hmem entries 0 "" [] true hentries rfl
            w r2 r3 hr
        split at hBo
        next ys =>
          injection hBo with hb1 hb2 hb3
          have hentries : (JsVal.arr ys :: es).all entryOk = true := by
            rw [hfil] at hok
            simp only [filterOk] at hok
            rw [List.all_cons]
            exact hok
          rw [← hb2]
          exact hall (JsVal.arr ys :: es) hentries _ rfl (by rw [hb1]; exact hres)
        next hne =>
          injection hBo with hb1 hb2 hb3
          have hentries : ([JsVal.arr (e0 :: es)]).all entryOk = true := by
            rw [hfil] at hok
            simp only [filterOk] at hok
            rw [List.all_cons, Bool.and_eq_true]
            refine ⟨?_, rfl⟩
            cases e0 with
            | arr ys => exact absurd rfl (hne ys)
            | str s => exact hok
            | num n => exact hok
            | boolean b => exact hok
            | null => exact hok
            | undef => exact hok
            | date iso => exact hok
            | sqlClause t2 vs => exact hok
            | objOther => exact hok
          rw [← hb2]
          exact hall [JsVal.arr (e0 :: es)] hentries _ rfl (by rw [hb1]; exact hres)
  next f hf1 hf2 =>
    injection hBo with hb1 hb2 hb3
    rw [← hb1] at hres
    exact Except.noConfusion hres

/-- C2 amended, witness: the C9-style example satisfies the balance
hypotheses and its three placeholders match its three parameters. -/
theorem c2_balance_amended_witness :
    dq0.db = defaultDb ∧
    filterOk (.arr [.arr [.str "a", .str "=", .num 1],
      .arr [.str "b", .str "IN", .arr [.num 6, .num 7], .str "OR"]]) = true ∧
    countQ "(a = ?) OR (b IN (?, ?))"
      = (buildSqlFromFilterArray dq0 ⟨.arr [.arr [.str "a", .str "=", .num 1],
          .arr [.str "b", .str "IN", .arr [.num 6, .num 7], .str "OR"]], .str "AND"⟩).vals.length :=
  ⟨rfl, rfl,
   c2_balance_amended dq0 ⟨.arr [.arr [.str "a", .str "=", .num 1],
       .arr [.str "b", .str "IN", .arr [.num 6, .num 7], .str "OR"]], .str "AND"⟩
     "(a = ?) OR (b IN (?, ?))" rfl rfl rfl⟩

/-- C9: compiling the specification
`[["("],["a","=",1],["b","!=",1],[")"],["c","IN",[6,7,8,9],"OR"]]` with
default connective "AND" yields exactly the SQL fragment
`((a = ?) AND (b != ?)) OR (c IN (?, ?, ?, ?))` and the parameter list
`[1, 1, 6, 7, 8, 9]`. -/
theorem c9_parenthesis_example :
    (buildSqlFromFilterArray dq0 ⟨.arr [.arr [.str "("], .arr [.str "a", .str "=", .num 1],
        .arr [.str "b", .str "!=", .num 1], .arr [.str ")"],
        .arr [.str "c", .str "IN", .arr [.num 6, .num 7, .num 8, .num 9], .str "OR"]],
      .str "AND"⟩).res = .ok "((a = ?) AND (b != ?)) OR (c IN (?, ?, ?, ?))" ∧
    (buildSqlFromFilterArray dq0 ⟨.arr [.arr [.str "("], .arr [.str "a", .str "=", .num 1],
        .arr [.str "b", .str "!=", .num 1], .arr [.str ")"],
        .arr [.str "c", .str "IN", .arr [.num 6, .num 7, .num 8, .num 9], .str "OR"]],
      .str "AND"⟩).vals = [.num 1, .num 1, .num 6, .num 7, .num 8, .num 9] :=
  ⟨rfl, rfl⟩

/-- C1 counterexample: for the scalar predicate `["a","=",null]` the compiled
SQL is `(a = ?)` - a placeholder, with no inline `NULL` keyword - and the
string "NULL" is appended to the parameter list, so the parameter list is
not left untouched as the claim states. -/
theorem c1_null_value_counterexample :
    (buildSqlFromFilterArray dq0 ⟨.arr [.arr [.str "a", .str "=", .null]], .str "AND"⟩).res
      = .ok "(a = ?)" ∧
    (buildSqlFromFilterArray dq0 ⟨.arr [.arr [.str "a", .str "=", .null]], .str "AND"⟩).vals
      = [.str "NULL"] ∧
    hasSubstr "NULL" "(a = ?)" = false ∧
    (buildSqlFromFilterArray dq0 ⟨.arr [.arr [.str "a", .str "=", .null]], .str "AND"⟩).vals ≠ [] :=
  ⟨rfl, rfl, rfl, fun h => List.cons_ne_nil _ _ h⟩

/-- C1 amended: for every scalar (non-array) operator with a `null` value,
`_prepareSearchValue` emits the `?` placeholder as the value expression and
`_pushValue` appends the string "NULL" to the parameter list. -/
theorem c1_null_value_amended (vals : List JsVal) (table c op : String)
    (_hs : SQL_OPERATORS.contains op = true)
    (_ha : SQL_OPERATORS_ARRAY.contains op = false) :
    prepareSearchValue defaultDb table vals [.str c, .str op, .null] 0
      = .ok ("?", vals ++ [.str "NULL"]) := rfl

/-- C1 amended, witness at `vals = []`, `c = "a"`, `op = "="`. -/
theorem c1_null_value_amended_witness :
    SQL_OPERATORS.contains "=" = true ∧ SQL_OPERATORS_ARRAY.contains "=" = false ∧
    prepareSearchValue defaultDb "tbl" [] [.str "a", .str "=", .null] 0
      = .ok ("?", [.str "NULL"]) :=
  ⟨rfl, rfl, c1_null_value_amended [] "tbl" "a" "=" rfl rfl⟩

/-- C2 counterexample: the filter `[["a","IN",rawClause]]`, where the raw
clause text `(SELECT id FROM t WHERE x = ?)` carries one `?` but no bound
values, compiles successfully to SQL with one placeholder and an empty
parameter list - the lengths differ. -/
theorem c2_balance_counterexample :
    (buildSqlFromFilterArray dq0 ⟨.arr [.arr [.str "a", .str "IN",
        .sqlClause "(SELECT id FROM t WHERE x = ?)" []]], .str "AND"⟩).res
      = .ok "(a IN (SELECT id FROM t WHERE x = ?))" ∧
    countQ "(a IN (SELECT id FROM t WHERE x = ?))" = 1 ∧
    (buildSqlFromFilterArray dq0 ⟨.arr [.arr [.str "a", .str "IN",
        .sqlClause "(SELECT id FROM t WHERE x = ?)" []]], .str "AND"⟩).vals.length = 0 :=
  ⟨rfl, rfl, rfl⟩

/-- C3: the loop writes each sliced entry copy back into the caller's filter
array (line 583) and then rewrites it in place, so compiling the same filter
array twice gives different parameter lists: the first compile of
`[["a","=",1]]` yields values `[1]` and leaves the entry as `["a","=","?"]`;
compiling the array it left behind yields values `["?"]`. -/
theorem c3_recompile_eval :
    (buildSqlFromFilterArray dq0 ⟨.arr [.arr [.str "a", .str "=", .num 1]], .str "AND"⟩).res
      = .ok "(a = ?)" ∧
    (buildSqlFromFilterArray dq0 ⟨.arr [.arr [.str "a", .str "=", .num 1]], .str "AND"⟩).vals
      = [.num 1] ∧
    (buildSqlFromFilterArray dq0 ⟨.arr [.arr [.str "a", .str "=", .num 1]], .str "AND"⟩).filterAfter
      = .arr [.arr [.str "a", .str "=", .str "?"]] ∧
    (buildSqlFromFilterArray dq0
        ⟨(buildSqlFromFilterArray dq0 ⟨.arr [.arr [.str "a", .str "=", .num 1]], .str "AND"⟩).filterAfter,
         .str "AND"⟩).vals = [.str "?"] ∧
    (buildSqlFromFilterArray dq0
        ⟨(buildSqlFromFilterArray dq0 ⟨.arr [.arr [.str "a", .str "=", .num 1]], .str "AND"⟩).filterAfter,
         .str "AND"⟩).vals
      ≠ (buildSqlFromFilterArray dq0 ⟨.arr [.arr [.str "a", .str "=", .num 1]], .str "AND"⟩).vals :=
  ⟨rfl, rfl, rfl, rfl, by
    intro h
    have h2 : [JsVal.str "?"] = [JsVal.num 1] := h
    injection h2 with h3 h4
    exact JsVal.noConfusion h3⟩

/-- C4 counterexample: a failing `prepareCount` call (unknown operator in the
second entry) leaves the stored SQL unchanged, but the stored parameter list
is reset and filled with the value pushed before the error: it no longer
equals its pre-call value `[7]`. -/
theorem c4_error_state_counterexample :
    (prepareCount ⟨"t", "SELECT 1", [.num 7], defaultDb⟩
        ⟨.arr [.arr [.str "a", .str "=", .num 1], .arr [.str "b", .str "FOO", .num 2]], .undef⟩).1
      = .error "Error: unknown operator FOO in search[1][1]" ∧
    (prepareCount ⟨"t", "SELECT 1", [.num 7], defaultDb⟩
        ⟨.arr [.arr [.str "a", .str "=", .num 1], .arr [.str "b", .str "FOO", .num 2]], .undef⟩).2.sql
      = "SELECT 1" ∧
    (prepareCount ⟨"t", "SELECT 1", [.num 7], defaultDb⟩
        ⟨.arr [.arr [.str "a", .str "=", .num 1], .arr [.str "b", .str "FOO", .num 2]], .undef⟩).2.sqlValues
      = [.num 1] ∧
    (prepareCount ⟨"t", "SELECT 1", [.num 7], defaultDb⟩
        ⟨.arr [.arr [.str "a", .str "=", .num 1], .arr [.str "b", .str "FOO", .num 2]], .undef⟩).2.sqlValues
      ≠ [.num 7] :=
  ⟨rfl, rfl, rfl, by
    intro h
    have h2 : [JsVal.num 1] = [JsVal.num 7] := h
    injection h2 with h3 h4
    injection h3 with h5
    exact absurd h5 (by decide)⟩

/-- C4 amended: whenever `prepareCount` raises, the stored SQL string is
unchanged, while the stored parameter list is whatever
`_buildSqlFromFilterArray` left behind (it was reset at the start of the
compile, so it need not equal its pre-call value). -/
theorem c4_error_state_amended (q : DbQuery) (s : SearchObj)
    (h : (prepareCount q s).1.isOk = false) :
    (prepareCount q s).2.sql = q.sql ∧
    (prepareCount q s).2.sqlValues = (buildSqlFromFilterArray q s).vals := by
  cases hb : buildSqlFromFilterArray q s with
  | mk res vals fa =>
    cases res with
    | error e => simp [prepareCount, hb]
    | ok w => simp [prepareCount, hb, Except.isOk, Except.toBool] at h

/-- C4 amended, witness at the counterexample input. -/
theorem c4_error_state_amended_witness :
    (prepareCount ⟨"t", "SELECT 1", [.num 7], defaultDb⟩
        ⟨.arr [.arr [.str "a", .str "=", .num 1], .arr [.str "b", .str "FOO", .num 2]], .undef⟩).1.isOk
      = false ∧
    ((prepareCount ⟨"t", "SELECT 1", [.num 7], defaultDb⟩
        ⟨.arr [.arr [.str "a", .str "=", .num 1], .arr [.str "b", .str "FOO", .num 2]], .undef⟩).2.sql
      = "SELECT 1" ∧
     (prepareCount ⟨"t", "SELECT 1", [.num 7], defaultDb⟩
        ⟨.arr [.arr [.str "a", .str "=", .num 1], .arr [.str "b", .str "FOO", .num 2]], .undef⟩).2.sqlValues
      = (buildSqlFromFilterArray ⟨"t", "SELECT 1", [.num 7], defaultDb⟩
        ⟨.arr [.arr [.str "a", .str "=", .num 1], .arr [.str "b", .str "FOO", .num 2]], .undef⟩).vals) :=
  ⟨rfl, c4_error_state_amended _ _ rfl⟩

/-- C5: the column ` A ` of the predicate `[" A ","=",1]` is emitted verbatim
- neither trimmed nor lower-cased - because the guard on line 618 tests the
type of the whole entry instead of `entry[0]`, so `_prepareColumnName` is
never called; the claimed output `(a = ?)` differs from the actual
`( A  = ?)`. -/
theorem c5_column_normalization_eval :
    (buildSqlFromFilterArray dq0 ⟨.arr [.arr [.str " A ", .str "=", .num 1]], .undef⟩).res
      = .ok "( A  = ?)" ∧
    prepareColumnName (.str " A ") = .ok "a" ∧
    "( A  = ?)" ≠ "(a = ?)" :=
  ⟨rfl, rfl, by decide⟩

/-- C6 counterexample: with default connective "OR" and an explicit entry
override "OR", the ISNULL entry of
`[["a","=",1],["b","ISNULL",undefined,"OR"]]` is still joined with `AND`
(lines 823-824 overwrite the connective slot with the result of
`_getLogicOperator(entry[2], '')`, which is always "AND" because `entry[2]`
was just cleared), contradicting the claimed `... OR (ISNULL(b))`. -/
theorem c6_isnull_connective_counterexample :
    (buildSqlFromFilterArray dq0 ⟨.arr [.arr [.str "a", .str "=", .num 1],
        .arr [.str "b", .str "ISNULL", .undef, .str "OR"]], .str "OR"⟩).res
      = .ok "(a = ?) AND (ISNULL(b))" ∧
    "(a = ?) AND (ISNULL(b))" ≠ "(a = ?) OR (ISNULL(b))" :=
  ⟨rfl, by decide⟩

/-- C6 amended: an ISNULL entry is rewritten to the bare clause
`ISNULL(column)` taking no value, but its connective is always `AND`,
whatever the entry override `ov` and whichever of the four valid default
connectives is supplied. -/
theorem c6_isnull_connective_amended (ov : JsVal) (d : String)
    (hd : d = "AND" ∨ d = "OR" ∨ d = "XOR" ∨ d = "NOT") :
    (buildSqlFromFilterArray dq0 ⟨.arr [.arr [.str "a", .str "=", .num 1],
        .arr [.str "b", .str "ISNULL", .undef, ov]], .str d⟩).res
      = .ok "(a = ?) AND (ISNULL(b))" ∧
    (buildSqlFromFilterArray dq0 ⟨.arr [.arr [.str "a", .str "=", .num 1],
        .arr [.str "b", .str "ISNULL", .undef, ov]], .str d⟩).vals = [.num 1] := by
  rcases hd with rfl | rfl | rfl | rfl <;> exact ⟨rfl, rfl⟩

/-- C6 amended, witness at override "OR" and default "OR". -/
theorem c6_isnull_connective_amended_witness :
    ("OR" = "AND" ∨ "OR" = "OR" ∨ "OR" = "XOR" ∨ "OR" = "NOT") ∧
    (buildSqlFromFilterArray dq0 ⟨.arr [.arr [.str "a", .str "=", .num 1],
        .arr [.str "b", .str "ISNULL", .undef, .str "OR"]], .str "OR"⟩).res
      = .ok "(a = ?) AND (ISNULL(b))" :=
  ⟨Or.inr (Or.inl rfl),
   (c6_isnull_connective_amended (.str "OR") "OR" (Or.inr (Or.inl rfl))).1⟩

/-- C7: in an ORDER BY pair `["a","foo"]` the invalid direction is not
coerced to ASC: by JS operator precedence the `allowedDir` test on line 713
is `(!dir.toUpperCase()) in allowedDir`, which is always false, so any
truthy direction is upper-cased and kept - the emitted term is `a FOO`, not
the claimed `a ASC` (a missing direction does default to ASC). -/
theorem c7_orderby_direction_eval :
    buildSqlOrderBy (.arr [.arr [.str "a", .str "foo"]]) = .ok " ORDER BY a FOO" ∧
    buildSqlOrderBy (.arr [.arr [.str "a"]]) = .ok " ORDER BY a ASC" ∧
    " ORDER BY a FOO" ≠ " ORDER BY a ASC" :=
  ⟨rfl, rfl, by decide⟩

/-- C8 counterexample: an unknown connective override on an entry does not
fail compilation: `[["a","=",1],["b","=",2,"MAYBE"]]` with default "AND"
compiles successfully (the override silently falls back to the default),
contradicting the claim that every unknown connective raises the
unknown-connective error. -/
theorem c8_unknown_connective_counterexample :
    (buildSqlFromFilterArray dq0 ⟨.arr [.arr [.str "a", .str "=", .num 1],
        .arr [.str "b", .str "=", .num 2, .str "MAYBE"]], .str "AND"⟩).res
      = .ok "(a = ?) AND (b = ?)" :=
  rfl

/-- C8 amended: an unknown default connective makes the compilation of any
non-empty filter fail (the failure being the `TypeError` raised while the
intended error message calls `.join` on the operator object, line 565), but
an unknown per-entry connective override never fails: `_getLogicOperator`
silently replaces it with the upper-cased default. -/
theorem c8_unknown_connective_amended :
    (∀ (s : String) (e : JsVal) (es : List JsVal), s ≠ "" → logicMem (toUpperJS s) = false →
      (buildSqlFromFilterArray dq0 ⟨.arr (e :: es), .str s⟩).res = .error msgJoinTypeErr) ∧
    (∀ (s d : String), logicMem (toUpperJS s) = false → logicMem d = true →
      getLogicOperator (.str s) d = .ok (toUpperJS d)) := by
  constructor
  · intro s e es hs hl
    simp [buildSqlFromFilterArray, resolveOperator, hs, hl]
  · intro s d hl hd
    have hdne : d ≠ "" := by
      intro h
      rw [h] at hd
      exact Bool.noConfusion ((rfl : logicMem "" = false) ▸ hd)
    by_cases hs : s = ""
    · subst hs
      simp [getLogicOperator, truthy, hdne]
    · simp [getLogicOperator, truthy, hs, hl, hdne]

/-- C8 amended, witness at override "MAYBE" and default "AND". -/
theorem c8_unknown_connective_amended_witness :
    ("MAYBE" ≠ "" ∧ logicMem (toUpperJS "MAYBE") = false ∧ logicMem "AND" = true) ∧
    (buildSqlFromFilterArray dq0 ⟨.arr [.arr [.str "a", .str "=", .num 1]], .str "MAYBE"⟩).res
      = .error msgJoinTypeErr ∧
    getLogicOperator (.str "MAYBE") "AND" = .ok (toUpperJS "AND") :=
  ⟨⟨by decide, rfl, rfl⟩,
   c8_unknown_connective_amended.1 "MAYBE" (.arr [.str "a", .str "=", .num 1]) [] (by decide) rfl,
   c8_unknown_connective_amended.2 "MAYBE" "AND" rfl rfl⟩

/-- C10: any `count` argument that is not an object carrying a `filter`
property (null, a bare string, a number, an object without `filter`, ...) is
silently replaced by `{filter: []}`, and the built statement is
`SELECT COUNT(*) FROM table` with no WHERE clause, counting all rows;
no error is raised.  (`$.isObject` lives in the framework core outside src/
and is modeled from the spec; see `isObjectModelled`.) -/
theorem c10_count_lenient (q : DbQuery) (arg : CountArg)
    (h : isObjectModelled arg = false ∨ argFilter arg = JsVal.undef) :
    countPrepare q arg
      = (.ok ("SELECT COUNT(*) FROM " ++ q.table),
         ⟨q.table, "SELECT COUNT(*) FROM " ++ q.table, [], q.db⟩) := by
  have hguard : (isObjectModelled arg && truthy (argFilter arg)) = false := by
    rcases h with h | h
    · simp [h]
    · simp [h, truthy]
  cases arg with
  | val v =>
    simp only [countPrepare, hguard, if_false, Bool.false_eq_true]
    rfl
  | obj s =>
    simp only [countPrepare, hguard, if_false, Bool.false_eq_true]
    rfl

/-- C10 witness at `arg = null`. -/
theorem c10_count_lenient_witness :
    (isObjectModelled (.val .null) = false ∨ argFilter (.val .null) = JsVal.undef) ∧
    countPrepare ⟨"tbl", "", [], defaultDb⟩ (.val .null)
      = (.ok "SELECT COUNT(*) FROM tbl",
         ⟨"tbl", "SELECT COUNT(*) FROM tbl", [], defaultDb⟩) :=
  ⟨Or.inl rfl, c10_count_lenient ⟨"tbl", "", [], defaultDb⟩ (.val .null) (Or.inl rfl)⟩

end JqMvc
